import Mathlib

set_option maxRecDepth 4000

/-!
Verification of the thumbnail-gallery core of `app.py`.

The Python source is shallowly embedded as follows.

* Real-valued arithmetic of the renderer (Python `/` on ints producing floats,
  `int(...)` truncation, `round`) is modelled exactly over `ℚ`; the claims at
  stake (rounding mode, guards, placement) are robust to double-precision
  rounding error, which is therefore abstracted away.
* Pixels are records of natural-number channels.  PIL's `paste` with an alpha
  mask is modelled as straight alpha-over compositing; its internal fixed-point
  rounding is approximated by exact natural division, which agrees with PIL at
  the fully-transparent and fully-opaque alpha values used by the claims.
* The LANCZOS resampler's pixel values are irrelevant to every claim, so the
  resampler is a parameter of the model (`Resample`); all theorems hold for an
  arbitrary resampler.  Its output dimensions are forced by the model exactly
  as in the source (`img.resize((new_w, new_h))`).
* The filesystem effects of `generate_thumbnail_if_needed` are modelled by an
  explicit state record plus an oracle saying which of the fallible system
  calls raises; `delete_paths` threads a list of existing files.
-/

/- ===================================================================
   Renderer geometry: app.py lines 114-120
     ratio = min(target_w / src_w, target_h / src_h)
     new_w = max(1, int(src_w * ratio))
     new_h = max(1, int(src_h * ratio))
   =================================================================== -/

/-- Python `int(q)`: truncation toward zero (floor for nonnegative values). -/
def pyInt (q : ℚ) : ℤ :=
  if 0 ≤ q then ⌊q⌋ else ⌈q⌉

/-- The resize geometry computed at app.py:117-119.  Python `int(...)`
truncates; `max(1, ...)` is taken on the truncated value. -/
def fitSize (src_w src_h target_w target_h : ℕ) : ℕ × ℕ :=
  (max 1 (pyInt ((src_w : ℚ) *
      min ((target_w : ℚ) / (src_w : ℚ)) ((target_h : ℚ) / (src_h : ℚ)))).toNat,
   max 1 (pyInt ((src_h : ℚ) *
      min ((target_w : ℚ) / (src_w : ℚ)) ((target_h : ℚ) / (src_h : ℚ)))).toNat)

/-- Modelled from the spec wording of C2: identical geometry but with
`round` (rounding to nearest) in place of the code's truncation. -/
def fitSizeSpecRound (src_w src_h target_w target_h : ℕ) : ℕ × ℕ :=
  (max 1 (round ((src_w : ℚ) *
      min ((target_w : ℚ) / (src_w : ℚ)) ((target_h : ℚ) / (src_h : ℚ)))).toNat,
   max 1 (round ((src_h : ℚ) *
      min ((target_w : ℚ) / (src_w : ℚ)) ((target_h : ℚ) / (src_h : ℚ)))).toNat)

/-- Modelled from the amended claim wording: `newW = max(1, trunc(srcW*ratio))`
with truncation toward zero, which on these nonnegative products is the floor. -/
def fitSizeAmendedTrunc (src_w src_h target_w target_h : ℕ) : ℕ × ℕ :=
  (max 1 (⌊(src_w : ℚ) *
      min ((target_w : ℚ) / (src_w : ℚ)) ((target_h : ℚ) / (src_h : ℚ))⌋).toNat,
   max 1 (⌊(src_h : ℚ) *
      min ((target_w : ℚ) / (src_w : ℚ)) ((target_h : ℚ) / (src_h : ℚ))⌋).toNat)

lemma pyInt_of_nonneg {q : ℚ} (h : 0 ≤ q) : pyInt q = ⌊q⌋ := if_pos h

lemma ratio_nonneg (sw sh tw th : ℕ) :
    0 ≤ min ((tw : ℚ) / (sw : ℚ)) ((th : ℚ) / (sh : ℚ)) :=
  le_min (div_nonneg (Nat.cast_nonneg tw) (Nat.cast_nonneg sw))
    (div_nonneg (Nat.cast_nonneg th) (Nat.cast_nonneg sh))

lemma ratio_min_left {sw sh tw th : ℕ} (hsw : 0 < sw) (hsh : 0 < sh)
    (h : tw * sh ≤ th * sw) :
    min ((tw : ℚ) / (sw : ℚ)) ((th : ℚ) / (sh : ℚ)) = (tw : ℚ) / (sw : ℚ) := by
  have hsw' : (0 : ℚ) < sw := by exact_mod_cast hsw
  have hsh' : (0 : ℚ) < sh := by exact_mod_cast hsh
  apply min_eq_left
  rw [div_le_div_iff₀ hsw' hsh']
  exact_mod_cast h

lemma ratio_min_right {sw sh tw th : ℕ} (hsw : 0 < sw) (hsh : 0 < sh)
    (h : th * sw ≤ tw * sh) :
    min ((tw : ℚ) / (sw : ℚ)) ((th : ℚ) / (sh : ℚ)) = (th : ℚ) / (sh : ℚ) := by
  have hsw' : (0 : ℚ) < sw := by exact_mod_cast hsw
  have hsh' : (0 : ℚ) < sh := by exact_mod_cast hsh
  apply min_eq_right
  rw [div_le_div_iff₀ hsh' hsw']
  exact_mod_cast h

lemma floor_cast_mul_div (a b : ℕ) :
    (⌊((a : ℚ)) / ((b : ℚ))⌋).toNat = a / b := by
  have h1 : ((a : ℚ)) = (((a : ℤ) : ℚ)) := by push_cast; ring
  rw [h1, Rat.floor_intCast_div_natCast]
  rw [show ((a : ℤ) / (b : ℤ)) = ((a / b : ℕ) : ℤ) from (Int.ofNat_tdiv a b).symm]
  exact Int.toNat_natCast _

/-- Evaluation of `fitSize` when the width ratio is the binding one. -/
lemma fitSize_ratio_left {sw sh tw th : ℕ} (hsw : 0 < sw) (hsh : 0 < sh)
    (h : tw * sh ≤ th * sw) :
    fitSize sw sh tw th = (max 1 tw, max 1 (sh * tw / sw)) := by
  have hsw' : (0 : ℚ) < sw := by exact_mod_cast hsw
  unfold fitSize
  rw [ratio_min_left hsw hsh h]
  simp only [Prod.mk.injEq]
  refine ⟨?_, ?_⟩
  · congr 1
    rw [pyInt_of_nonneg (mul_nonneg (Nat.cast_nonneg sw)
      (div_nonneg (Nat.cast_nonneg tw) (Nat.cast_nonneg sw)))]
    rw [mul_comm, div_mul_cancel₀ _ hsw'.ne', Int.floor_natCast, Int.toNat_natCast]
  · congr 1
    rw [pyInt_of_nonneg (mul_nonneg (Nat.cast_nonneg sh)
      (div_nonneg (Nat.cast_nonneg tw) (Nat.cast_nonneg sw)))]
    rw [mul_div_assoc']
    rw [show ((sh : ℚ) * (tw : ℚ)) = ((sh * tw : ℕ) : ℚ) by push_cast; ring]
    exact floor_cast_mul_div (sh * tw) sw

/-- Evaluation of `fitSize` when the height ratio is the binding one. -/
lemma fitSize_ratio_right {sw sh tw th : ℕ} (hsw : 0 < sw) (hsh : 0 < sh)
    (h : th * sw ≤ tw * sh) :
    fitSize sw sh tw th = (max 1 (sw * th / sh), max 1 th) := by
  have hsh' : (0 : ℚ) < sh := by exact_mod_cast hsh
  unfold fitSize
  rw [ratio_min_right hsw hsh h]
  simp only [Prod.mk.injEq]
  refine ⟨?_, ?_⟩
  · congr 1
    rw [pyInt_of_nonneg (mul_nonneg (Nat.cast_nonneg sw)
      (div_nonneg (Nat.cast_nonneg th) (Nat.cast_nonneg sh)))]
    rw [mul_div_assoc']
    rw [show ((sw : ℚ) * (th : ℚ)) = ((sw * th : ℕ) : ℚ) by push_cast; ring]
    exact floor_cast_mul_div (sw * th) sh
  · congr 1
    rw [pyInt_of_nonneg (mul_nonneg (Nat.cast_nonneg sh)
      (div_nonneg (Nat.cast_nonneg th) (Nat.cast_nonneg sh)))]
    rw [mul_comm, div_mul_cancel₀ _ hsh'.ne', Int.floor_natCast, Int.toNat_natCast]

/-- C2 (counterexample): at a 7x4 source and 320x320 target the code truncates
`4 * 320/7 = 182.857...` to 182, while the spec's round-to-nearest gives 183. -/
theorem fitSize_round_counterexample :
    fitSize 7 4 320 320 = (320, 182) ∧
    fitSizeSpecRound 7 4 320 320 = (320, 183) ∧
    fitSize 7 4 320 320 ≠ fitSizeSpecRound 7 4 320 320 := by
  have hcode : fitSize 7 4 320 320 = (320, 182) := by
    rw [fitSize_ratio_left (by norm_num) (by norm_num) (by norm_num)]
    decide
  have hspec : fitSizeSpecRound 7 4 320 320 = (320, 183) := by
    unfold fitSizeSpecRound
    rw [@ratio_min_left 7 4 320 320 (by norm_num) (by norm_num) (by norm_num)]
    have h1 : ((7 : ℕ) : ℚ) * (((320 : ℕ) : ℚ) / ((7 : ℕ) : ℚ)) = ((320 : ℕ) : ℚ) := by
      push_cast
      norm_num
    have h2 : ((4 : ℕ) : ℚ) * (((320 : ℕ) : ℚ) / ((7 : ℕ) : ℚ)) + 1 / 2 =
        (((2567 : ℤ) : ℚ)) / (((14 : ℕ) : ℚ)) := by
      push_cast
      norm_num
    rw [h1, round_natCast, round_eq, h2, Rat.floor_intCast_div_natCast]
    norm_num
    decide
  refine ⟨hcode, hspec, ?_⟩
  rw [hcode, hspec]
  simp

/-- C2 (amended): the code's geometry equals the amended formula (truncation
toward zero, i.e. floor, instead of round); both dimensions come out at least 1,
and neither exceeds the corresponding target dimension (or 1). -/
theorem fitSize_amended_truncation (sw sh tw th : ℕ) (hsw : 0 < sw) (hsh : 0 < sh) :
    fitSize sw sh tw th = fitSizeAmendedTrunc sw sh tw th ∧
    1 ≤ (fitSize sw sh tw th).1 ∧ 1 ≤ (fitSize sw sh tw th).2 ∧
    (fitSize sw sh tw th).1 ≤ max 1 tw ∧ (fitSize sw sh tw th).2 ≤ max 1 th := by
  have hsw' : (0 : ℚ) < sw := by exact_mod_cast hsw
  have hsh' : (0 : ℚ) < sh := by exact_mod_cast hsh
  have hrw : 0 ≤ (sw : ℚ) *
      min ((tw : ℚ) / (sw : ℚ)) ((th : ℚ) / (sh : ℚ)) :=
    mul_nonneg (Nat.cast_nonneg sw) (ratio_nonneg sw sh tw th)
  have hrh : 0 ≤ (sh : ℚ) *
      min ((tw : ℚ) / (sw : ℚ)) ((th : ℚ) / (sh : ℚ)) :=
    mul_nonneg (Nat.cast_nonneg sh) (ratio_nonneg sw sh tw th)
  have hboundw : (sw : ℚ) *
      min ((tw : ℚ) / (sw : ℚ)) ((th : ℚ) / (sh : ℚ)) ≤ (tw : ℚ) := by
    calc (sw : ℚ) * min ((tw : ℚ) / (sw : ℚ)) ((th : ℚ) / (sh : ℚ))
        ≤ (sw : ℚ) * ((tw : ℚ) / (sw : ℚ)) :=
          mul_le_mul_of_nonneg_left (min_le_left _ _) (Nat.cast_nonneg sw)
      _ = (tw : ℚ) := by rw [mul_comm, div_mul_cancel₀ _ hsw'.ne']
  have hboundh : (sh : ℚ) *
      min ((tw : ℚ) / (sw : ℚ)) ((th : ℚ) / (sh : ℚ)) ≤ (th : ℚ) := by
    calc (sh : ℚ) * min ((tw : ℚ) / (sw : ℚ)) ((th : ℚ) / (sh : ℚ))
        ≤ (sh : ℚ) * ((th : ℚ) / (sh : ℚ)) :=
          mul_le_mul_of_nonneg_left (min_le_right _ _) (Nat.cast_nonneg sh)
      _ = (th : ℚ) := by rw [mul_comm, div_mul_cancel₀ _ hsh'.ne']
  refine ⟨?_, le_max_left _ _, le_max_left _ _, ?_, ?_⟩
  · unfold fitSize fitSizeAmendedTrunc
    rw [pyInt_of_nonneg hrw, pyInt_of_nonneg hrh]
  · unfold fitSize
    rw [pyInt_of_nonneg hrw]
    apply max_le (le_max_left _ _)
    apply le_max_of_le_right
    have : ⌊(sw : ℚ) * min ((tw : ℚ) / (sw : ℚ)) ((th : ℚ) / (sh : ℚ))⌋ ≤ (tw : ℤ) := by
      rw [show ((tw : ℤ)) = ⌊((tw : ℕ) : ℚ)⌋ by rw [Int.floor_natCast]]
      exact Int.floor_le_floor hboundw
    exact_mod_cast Int.toNat_le_toNat this
  · unfold fitSize
    rw [pyInt_of_nonneg hrh]
    apply max_le (le_max_left _ _)
    apply le_max_of_le_right
    have : ⌊(sh : ℚ) * min ((tw : ℚ) / (sw : ℚ)) ((th : ℚ) / (sh : ℚ))⌋ ≤ (th : ℤ) := by
      rw [show ((th : ℤ)) = ⌊((th : ℕ) : ℚ)⌋ by rw [Int.floor_natCast]]
      exact Int.floor_le_floor hboundh
    exact_mod_cast Int.toNat_le_toNat this

/-- C2 amended claim instantiated at a concrete input. -/
theorem fitSize_amended_truncation_witness :
    0 < 7 ∧ 0 < 4 ∧
    (fitSize 7 4 320 320 = fitSizeAmendedTrunc 7 4 320 320 ∧
     1 ≤ (fitSize 7 4 320 320).1 ∧ 1 ≤ (fitSize 7 4 320 320).2 ∧
     (fitSize 7 4 320 320).1 ≤ max 1 320 ∧ (fitSize 7 4 320 320).2 ≤ max 1 320) :=
  ⟨by norm_num, by norm_num,
   fitSize_amended_truncation 7 4 320 320 (by norm_num) (by norm_num)⟩

/- ===================================================================
   Pixel model and renderer composition: app.py lines 110-134
   =================================================================== -/

/-- An opaque 3-channel pixel (the mode-RGB rasters of PIL). -/
structure RGB where
  r : ℕ
  g : ℕ
  b : ℕ
deriving DecidableEq

/-- A 4-channel pixel with straight (non-premultiplied) alpha. -/
structure RGBA where
  r : ℕ
  g : ℕ
  b : ℕ
  a : ℕ
deriving DecidableEq

/-- A mode-RGB raster: dimensions plus a total pixel map (pixels outside the
bounds are junk values that `paste` never exposes inside the canvas). -/
structure Raster where
  w : ℕ
  h : ℕ
  pix : ℤ → ℤ → RGB

/-- A decoded source image after `img.convert("RGBA")` (app.py:112). -/
structure RGBAImage where
  w : ℕ
  h : ℕ
  pix : ℤ → ℤ → RGBA

/-- The fixed white background color (255, 255, 255) of app.py:123 and 126. -/
def white : RGB := ⟨255, 255, 255⟩

/-- PIL `Image.new("RGB", (w, h), c)`: a constant-color canvas. -/
def imageNew (w h : ℕ) (c : RGB) : Raster :=
  ⟨w, h, fun _ _ => c⟩

/-- PIL `canvas.paste(im, (ox, oy))` for an opaque `im`: inside the pasted
rectangle the pixel comes from `im`, elsewhere the canvas is untouched.  The
canvas dimensions never change. -/
def paste (canvas im : Raster) (ox oy : ℤ) : Raster :=
  { w := canvas.w
    h := canvas.h
    pix := fun x y =>
      if ox ≤ x ∧ x < ox + (im.w : ℤ) ∧ oy ≤ y ∧ y < oy + (im.h : ℤ) then
        im.pix (x - ox) (y - oy)
      else canvas.pix x y }

/-- Straight alpha-over-white compositing of one RGBA pixel, the effect of
`bg.paste(resized, (0, 0), resized); bg.convert("RGB")` with an opaque white
`bg` (app.py:126-128).  PIL's fixed-point rounding is modelled by exact
natural division, which coincides with PIL at alpha 0 and alpha 255. -/
def alphaOverWhite (p : RGBA) : RGB :=
  ⟨(p.r * p.a + 255 * (255 - p.a)) / 255,
   (p.g * p.a + 255 * (255 - p.a)) / 255,
   (p.b * p.a + 255 * (255 - p.a)) / 255⟩

/-- The pixel sampler of `img.resize((new_w, new_h), resample=Image.LANCZOS)`
(app.py:120): given the source, the new dimensions and a coordinate it yields
the resampled RGBA pixel.  The claims do not depend on the LANCZOS kernel, so
the renderer is verified for an arbitrary sampler. -/
def Resample : Type :=
  RGBAImage → ℕ → ℕ → ℤ → ℤ → RGBA

/-- The geometry of app.py:115-119 applied to a decoded image. -/
def thumbFit (img : RGBAImage) (tw th : ℕ) : ℕ × ℕ :=
  fitSize img.w img.h tw th

/-- The centering offsets of app.py:132-133; Python `//` is floor division. -/
def thumbOffset (img : RGBAImage) (tw th : ℕ) : ℤ × ℤ :=
  (((tw : ℤ) - ((thumbFit img tw th).1 : ℤ)).fdiv 2,
   ((th : ℤ) - ((thumbFit img tw th).2 : ℤ)).fdiv 2)

/-- The renderer pipeline of app.py:110-134: resize to the fitted size,
flatten alpha over white, create the white target-size canvas, paste the
flattened image centered. -/
def renderThumb (resample : Resample) (img : RGBAImage) (tw th : ℕ) : Raster :=
  paste (imageNew tw th white)
    { w := (thumbFit img tw th).1
      h := (thumbFit img tw th).2
      pix := fun x y =>
        alphaOverWhite (resample img (thumbFit img tw th).1 (thumbFit img tw th).2 x y) }
    (thumbOffset img tw th).1 (thumbOffset img tw th).2

/-- The rectangle of the canvas covered by the pasted, resized image. -/
def inPasteRect (img : RGBAImage) (tw th : ℕ) (x y : ℤ) : Prop :=
  (thumbOffset img tw th).1 ≤ x ∧
  x < (thumbOffset img tw th).1 + ((thumbFit img tw th).1 : ℤ) ∧
  (thumbOffset img tw th).2 ≤ y ∧
  y < (thumbOffset img tw th).2 + ((thumbFit img tw th).2 : ℤ)

lemma renderThumb_pix_in (resample : Resample) (img : RGBAImage) (tw th : ℕ)
    (x y : ℤ) (h : inPasteRect img tw th x y) :
    (renderThumb resample img tw th).pix x y =
      alphaOverWhite (resample img (thumbFit img tw th).1 (thumbFit img tw th).2
        (x - (thumbOffset img tw th).1) (y - (thumbOffset img tw th).2)) := by
  show (if _ then _ else _) = _
  exact if_pos h

lemma renderThumb_pix_out (resample : Resample) (img : RGBAImage) (tw th : ℕ)
    (x y : ℤ) (h : ¬ inPasteRect img tw th x y) :
    (renderThumb resample img tw th).pix x y = white := by
  show (if _ then _ else _) = _
  exact if_neg h

lemma alphaOverWhite_transparent {p : RGBA} (h : p.a = 0) :
    alphaOverWhite p = white := by
  simp [alphaOverWhite, h, white]

lemma alphaOverWhite_opaque {p : RGBA} (h : p.a = 255) :
    alphaOverWhite p = ⟨p.r, p.g, p.b⟩ := by
  simp only [alphaOverWhite, h]
  have hr : (p.r * 255 + 255 * (255 - 255)) / 255 = p.r := by
    simp [Nat.mul_div_cancel]
  have hg : (p.g * 255 + 255 * (255 - 255)) / 255 = p.g := by
    simp [Nat.mul_div_cancel]
  have hb : (p.b * 255 + 255 * (255 - 255)) / 255 = p.b := by
    simp [Nat.mul_div_cancel]
  rw [hr, hg, hb]

/-- C4: the rendered raster has exactly the target dimensions for every source
and every resampler; inside the centered paste rectangle (offsets computed by
floor division) the pixels are the flattened resized image, and outside it the
opaque white canvas shows through. -/
theorem renderThumb_dims_and_placement (resample : Resample) (img : RGBAImage)
    (tw th : ℕ) :
    (renderThumb resample img tw th).w = tw ∧
    (renderThumb resample img tw th).h = th ∧
    (∀ x y : ℤ, inPasteRect img tw th x y →
      (renderThumb resample img tw th).pix x y =
        alphaOverWhite (resample img (thumbFit img tw th).1 (thumbFit img tw th).2
          (x - (thumbOffset img tw th).1) (y - (thumbOffset img tw th).2))) ∧
    (∀ x y : ℤ, ¬ inPasteRect img tw th x y →
      (renderThumb resample img tw th).pix x y = white) := by
  refine ⟨rfl, rfl, ?_, ?_⟩
  · intro x y hxy
    exact renderThumb_pix_in resample img tw th x y hxy
  · intro x y hxy
    exact renderThumb_pix_out resample img tw th x y hxy

/-- C4 at a concrete input: a 1x1 source into a 320x320 target fills the whole
canvas, and the corner pixel is the flattened sample. -/
theorem renderThumb_dims_and_placement_witness :
    ((renderThumb (fun _ _ _ _ _ => ⟨1, 2, 3, 255⟩) ⟨1, 1, fun _ _ => ⟨1, 2, 3, 255⟩⟩
        320 320).w = 320) ∧
    inPasteRect ⟨1, 1, fun _ _ => ⟨1, 2, 3, 255⟩⟩ 320 320 0 0 ∧
    (renderThumb (fun _ _ _ _ _ => ⟨1, 2, 3, 255⟩) ⟨1, 1, fun _ _ => ⟨1, 2, 3, 255⟩⟩
        320 320).pix 0 0 = alphaOverWhite ⟨1, 2, 3, 255⟩ := by
  have hfit : thumbFit (⟨1, 1, fun _ _ => ⟨1, 2, 3, 255⟩⟩ : RGBAImage) 320 320 =
      (320, 320) := by
    show fitSize 1 1 320 320 = (320, 320)
    rw [fitSize_ratio_left (by norm_num) (by norm_num) (by norm_num)]
    decide
  have hoff : thumbOffset (⟨1, 1, fun _ _ => ⟨1, 2, 3, 255⟩⟩ : RGBAImage) 320 320 =
      (0, 0) := by
    unfold thumbOffset
    rw [hfit]
    decide
  have hrect : inPasteRect (⟨1, 1, fun _ _ => ⟨1, 2, 3, 255⟩⟩ : RGBAImage) 320 320 0 0 := by
    unfold inPasteRect
    rw [hfit, hoff]
    refine ⟨le_refl 0, by norm_num, le_refl 0, by norm_num⟩
  have h := renderThumb_dims_and_placement (fun _ _ _ _ _ => ⟨1, 2, 3, 255⟩)
    ⟨1, 1, fun _ _ => ⟨1, 2, 3, 255⟩⟩ 320 320
  refine ⟨h.1, hrect, ?_⟩
  rw [h.2.2.1 0 0 hrect]

/-- C5: pixels of the resized image are placed through straight alpha-over-white
compositing: at every in-range coordinate the canvas receives the composited
sample; a fully transparent sample renders as the white background (not black),
and a fully opaque sample keeps its own color channels.  The output raster
carries no alpha channel at all (it is an opaque mode-RGB canvas). -/
theorem renderThumb_alpha_flattening (resample : Resample) (img : RGBAImage)
    (tw th : ℕ) (x y : ℤ)
    (hx0 : 0 ≤ x) (hx1 : x < ((thumbFit img tw th).1 : ℤ))
    (hy0 : 0 ≤ y) (hy1 : y < ((thumbFit img tw th).2 : ℤ)) :
    (renderThumb resample img tw th).pix
        ((thumbOffset img tw th).1 + x) ((thumbOffset img tw th).2 + y) =
      alphaOverWhite (resample img (thumbFit img tw th).1 (thumbFit img tw th).2 x y) ∧
    ((resample img (thumbFit img tw th).1 (thumbFit img tw th).2 x y).a = 0 →
      (renderThumb resample img tw th).pix
          ((thumbOffset img tw th).1 + x) ((thumbOffset img tw th).2 + y) = white) ∧
    ((resample img (thumbFit img tw th).1 (thumbFit img tw th).2 x y).a = 255 →
      (renderThumb resample img tw th).pix
          ((thumbOffset img tw th).1 + x) ((thumbOffset img tw th).2 + y) =
        ⟨(resample img (thumbFit img tw th).1 (thumbFit img tw th).2 x y).r,
         (resample img (thumbFit img tw th).1 (thumbFit img tw th).2 x y).g,
         (resample img (thumbFit img tw th).1 (thumbFit img tw th).2 x y).b⟩) := by
  have hin : inPasteRect img tw th
      ((thumbOffset img tw th).1 + x) ((thumbOffset img tw th).2 + y) := by
    unfold inPasteRect
    omega
  have hbase : (renderThumb resample img tw th).pix
      ((thumbOffset img tw th).1 + x) ((thumbOffset img tw th).2 + y) =
      alphaOverWhite (resample img (thumbFit img tw th).1 (thumbFit img tw th).2 x y) := by
    rw [renderThumb_pix_in resample img tw th _ _ hin]
    have hx : (thumbOffset img tw th).1 + x - (thumbOffset img tw th).1 = x := by ring
    have hy : (thumbOffset img tw th).2 + y - (thumbOffset img tw th).2 = y := by ring
    rw [hx, hy]
  refine ⟨hbase, ?_, ?_⟩
  · intro ha
    rw [hbase, alphaOverWhite_transparent ha]
  · intro ha
    rw [hbase, alphaOverWhite_opaque ha]

/-- C5 at a concrete input: a fully transparent 1x1 source pixel lands on the
320x320 canvas as pure white. -/
theorem renderThumb_alpha_flattening_witness :
    (renderThumb (fun _ _ _ _ _ => ⟨9, 9, 9, 0⟩) ⟨1, 1, fun _ _ => ⟨9, 9, 9, 0⟩⟩
        320 320).pix
      ((thumbOffset ⟨1, 1, fun _ _ => ⟨9, 9, 9, 0⟩⟩ 320 320).1 + 0)
      ((thumbOffset ⟨1, 1, fun _ _ => ⟨9, 9, 9, 0⟩⟩ 320 320).2 + 0) = white := by
  have hfit : thumbFit (⟨1, 1, fun _ _ => ⟨9, 9, 9, 0⟩⟩ : RGBAImage) 320 320 =
      (320, 320) := by
    show fitSize 1 1 320 320 = (320, 320)
    rw [fitSize_ratio_left (by norm_num) (by norm_num) (by norm_num)]
    decide
  have h := renderThumb_alpha_flattening (fun _ _ _ _ _ => ⟨9, 9, 9, 0⟩)
    ⟨1, 1, fun _ _ => ⟨9, 9, 9, 0⟩⟩ 320 320 0 0
    (le_refl 0) (by rw [hfit]; norm_num) (le_refl 0) (by rw [hfit]; norm_num)
  exact h.2.1 rfl

/- ===================================================================
   Thumbnail cache keyer: app.py lines 21-23, 81-93
     h = hashlib.sha1(str(image_path.resolve()).encode("utf-8")).hexdigest()
     return thumb_dir / (h + ".jpg")
   =================================================================== -/

/-- `THUMB_DIRNAME` of app.py:23. -/
def THUMB_DIRNAME : String := ".thumbnails"

/-- `THUMB_SIZE` of app.py:22. -/
def THUMB_SIZE : ℕ × ℕ := (320, 320)

/-- A filesystem path split into the containing directory and the last
component.  Paths are taken already absolute and symlink-free, so Python's
`Path.resolve()` is the identity on them (modelling assumption stated in the
spec: the keyer consumes the fully resolved path string). -/
structure GalleryPath where
  dir : String
  base : String
deriving DecidableEq

/-- `str(p.resolve())` under the absolute-path assumption. -/
def resolvePath (p : GalleryPath) : String :=
  p.dir ++ "/" ++ p.base

/-- `.encode("utf-8")`: the UTF-8 bytes of a string, as naturals. -/
def utf8EncodeCharNat (c : Char) : List ℕ :=
  let n := c.toNat
  if n < 0x80 then [n]
  else if n < 0x800 then
    [0xC0 + n / 0x40, 0x80 + n % 0x40]
  else if n < 0x10000 then
    [0xE0 + n / 0x1000, 0x80 + n / 0x40 % 0x40, 0x80 + n % 0x40]
  else
    [0xF0 + n / 0x40000, 0x80 + n / 0x1000 % 0x40, 0x80 + n / 0x40 % 0x40,
     0x80 + n % 0x40]

/-- UTF-8 encoding of a whole string. -/
def utf8Bytes (s : String) : List ℕ :=
  s.data.flatMap utf8EncodeCharNat

/-- Left rotation of a 32-bit word represented as a natural below `2^32`. -/
def rotl32 (n x : ℕ) : ℕ :=
  (x * 2 ^ n + x / 2 ^ (32 - n)) % 2 ^ 32

/-- The SHA-1 round constants. -/
def sha1K (i : ℕ) : ℕ :=
  if i < 20 then 0x5A827999
  else if i < 40 then 0x6ED9EBA1
  else if i < 60 then 0x8F1BBCDC
  else 0xCA62C1D6

/-- The SHA-1 round functions (bitwise on 32-bit words). -/
def sha1F (i b c d : ℕ) : ℕ :=
  if i < 20 then (b &&& c) ||| ((b ^^^ 0xFFFFFFFF) &&& d)
  else if i < 40 then b ^^^ c ^^^ d
  else if i < 60 then (b &&& c) ||| (b &&& d) ||| (c &&& d)
  else b ^^^ c ^^^ d

/-- The 80-entry message schedule of one 64-byte block. -/
def sha1Schedule (block : List ℕ) : List ℕ :=
  let w0 := (List.range 16).map (fun i =>
    block.getD (4 * i) 0 * 0x1000000 + block.getD (4 * i + 1) 0 * 0x10000 +
    block.getD (4 * i + 2) 0 * 0x100 + block.getD (4 * i + 3) 0)
  (List.range 64).foldl (fun w _ =>
    w ++ [rotl32 1 (w.getD (w.length - 3) 0 ^^^ w.getD (w.length - 8) 0 ^^^
      w.getD (w.length - 14) 0 ^^^ w.getD (w.length - 16) 0)]) w0

/-- One SHA-1 compression step over a 64-byte block. -/
def sha1Compress (h : ℕ × ℕ × ℕ × ℕ × ℕ) (block : List ℕ) : ℕ × ℕ × ℕ × ℕ × ℕ :=
  let w := sha1Schedule block
  let s := (List.range 80).foldl (fun (s : ℕ × ℕ × ℕ × ℕ × ℕ) i =>
    ((rotl32 5 s.1 + sha1F i s.2.1 s.2.2.1 s.2.2.2.1 + s.2.2.2.2 + sha1K i +
        w.getD i 0) % 2 ^ 32,
     s.1, rotl32 30 s.2.1, s.2.2.1, s.2.2.2.1)) h
  ((h.1 + s.1) % 2 ^ 32, (h.2.1 + s.2.1) % 2 ^ 32, (h.2.2.1 + s.2.2.1) % 2 ^ 32,
   (h.2.2.2.1 + s.2.2.2.1) % 2 ^ 32, (h.2.2.2.2 + s.2.2.2.2) % 2 ^ 32)

/-- SHA-1 padding: append `0x80`, zero bytes to 56 mod 64, then the bit length
big-endian in 8 bytes. -/
def sha1Pad (msg : List ℕ) : List ℕ :=
  msg ++ [0x80] ++ List.replicate ((120 - (msg.length + 1) % 64) % 64) 0 ++
    (List.range 8).map (fun i => 8 * msg.length / 2 ^ (8 * (7 - i)) % 256)

/-- Split a byte stream into 64-byte blocks (the stream is already padded to a
multiple of 64 bytes when this is applied). -/
def chunks64 (l : List ℕ) : List (List ℕ) :=
  (List.range ((l.length + 63) / 64)).map (fun i => (l.drop (64 * i)).take 64)

/-- The initial SHA-1 state. -/
def sha1Init : ℕ × ℕ × ℕ × ℕ × ℕ :=
  (0x67452301, 0xEFCDAB89, 0x98BADCFE, 0x10325476, 0xC3D2E1F0)

/-- Big-endian bytes of one 32-bit word. -/
def wordBytes (w : ℕ) : List ℕ :=
  [w / 0x1000000 % 256, w / 0x10000 % 256, w / 0x100 % 256, w % 256]

/-- The 20-byte SHA-1 digest of a byte stream (the model of `hashlib.sha1`). -/
def sha1 (msg : List ℕ) : List ℕ :=
  let s := (chunks64 (sha1Pad msg)).foldl sha1Compress sha1Init
  wordBytes s.1 ++ wordBytes s.2.1 ++ wordBytes s.2.2.1 ++ wordBytes s.2.2.2.1 ++
    wordBytes s.2.2.2.2

/-- The sixteen lowercase hexadecimal digit characters. -/
def hexDigitChars : List Char :=
  "0123456789abcdef".data

/-- The lowercase hex digit of `n mod 16`. -/
def hexDigit (n : ℕ) : Char :=
  hexDigitChars.getD (n % 16) '0'

/-- Two lowercase hex characters of one byte (Python `%02x` as used by
`hexdigest()`). -/
def byteHex (b : ℕ) : List Char :=
  [hexDigit (b / 16), hexDigit b]

/-- `hexdigest()`: the lowercase hexadecimal rendering of a digest. -/
def hexStr (bs : List ℕ) : String :=
  String.mk (bs.flatMap byteHex)

/-- `thumb_path_for` of app.py:87-93: SHA-1 of the UTF-8 resolved source path,
lowercase hex, with extension `.jpg`, inside the given thumbnail directory. -/
def thumb_path_for (image_path : GalleryPath) (thumb_dir : String) : GalleryPath :=
  ⟨thumb_dir, hexStr (sha1 (utf8Bytes (resolvePath image_path))) ++ ".jpg"⟩

/-- `ensure_thumb_dir` of app.py:81-84: the `.thumbnails` subdirectory of a
gallery directory (the `mkdir` side effect is not needed by any claim). -/
def ensure_thumb_dir (dirpath : String) : String :=
  dirpath ++ "/" ++ THUMB_DIRNAME

/-- The composed cache keyer as invoked at app.py:270:
`thumb_path_for(img_p, ensure_thumb_dir(target_dir))` with `target_dir` the
directory containing the image. -/
def thumbKeyFor (p : GalleryPath) : GalleryPath :=
  thumb_path_for p (ensure_thumb_dir p.dir)

/-- SHA-1 test vector: the digest of "abc". -/
example : hexStr (sha1 (utf8Bytes "abc")) = "a9993e364706816aba3e25717850c26c9cd0d89d" := by
  decide

/-- SHA-1 test vector: the digest of the empty string. -/
example : hexStr (sha1 (utf8Bytes "")) = "da39a3ee5e6b4b0d3255bfef95601890afd80709" := by
  decide

/-- Faithfulness anchor: the cache filename computed for a concrete path
matches the digest produced by `hashlib.sha1` on the same input. -/
example : (thumbKeyFor ⟨"/pics/a", "x.png"⟩).base =
    "b0e7d6a267ba0ab39a9945373d6f4dd0bf5cc7ba.jpg" := by
  decide

lemma sha1_length (msg : List ℕ) : (sha1 msg).length = 20 := by
  simp [sha1, wordBytes]

lemma hexStr_length (bs : List ℕ) : (hexStr bs).length = 2 * bs.length := by
  induction bs with
  | nil => rfl
  | cons b t ih =>
    have hstep : (hexStr (b :: t)).length = 2 + (hexStr t).length := by
      simp [hexStr, byteHex, String.length]
      omega
    rw [hstep, ih]
    simp [List.length_cons]
    ring

lemma hexDigit_mem (n : ℕ) : hexDigit n ∈ hexDigitChars := by
  unfold hexDigit
  have hlt : n % 16 < 16 := Nat.mod_lt n (by norm_num)
  set m := n % 16 with hm
  interval_cases m <;> decide

lemma mem_hexStr (bs : List ℕ) (c : Char) (hc : c ∈ (hexStr bs).data) :
    c ∈ hexDigitChars := by
  simp only [hexStr, List.mem_flatMap] at hc
  obtain ⟨b, _, hcb⟩ := hc
  simp only [byteHex, List.mem_cons, List.mem_singleton] at hcb
  rcases hcb with h | h | h
  · rw [h]; exact hexDigit_mem _
  · rw [h]; exact hexDigit_mem _
  · cases h

lemma string_append_right_cancel {a b s : String} (h : a ++ s = b ++ s) : a = b := by
  have hd : a.data ++ s.data = b.data ++ s.data := by
    rw [← String.data_append, ← String.data_append, h]
  have hab : a.data = b.data := List.append_cancel_right hd
  exact congrArg String.mk hab

/-- C6: the cache keyer is a pure total function, hence deterministic; its
output is the image's own `.thumbnails` directory plus the fixed-length (40
characters, 160 bits) lowercase-hexadecimal SHA-1 of the UTF-8 resolved path
with extension `.jpg`; and sources in different directories always receive
different cache file paths, even with identical basenames.  -/
theorem thumb_key_properties (pA pB p : GalleryPath) (hdir : pA.dir ≠ pB.dir) :
    thumbKeyFor p = thumbKeyFor p ∧
    thumbKeyFor pA ≠ thumbKeyFor pB ∧
    (hexStr (sha1 (utf8Bytes (resolvePath p)))).length = 40 ∧
    (∀ c ∈ (hexStr (sha1 (utf8Bytes (resolvePath p)))).data, c ∈ hexDigitChars) ∧
    (thumbKeyFor p).dir = ensure_thumb_dir p.dir ∧
    (thumbKeyFor p).base = hexStr (sha1 (utf8Bytes (resolvePath p))) ++ ".jpg" := by
  refine ⟨rfl, ?_, ?_, ?_, rfl, rfl⟩
  · intro heq
    apply hdir
    have h1 : pA.dir ++ "/" ++ THUMB_DIRNAME = pB.dir ++ "/" ++ THUMB_DIRNAME :=
      congrArg GalleryPath.dir heq
    exact string_append_right_cancel (string_append_right_cancel h1)
  · rw [hexStr_length, sha1_length]
  · exact fun c hc => mem_hexStr _ c hc

/-- C6 at concrete inputs: same basename, different directories, different
cache paths. -/
theorem thumb_key_properties_witness :
    (GalleryPath.mk "/pics/a" "x.png").dir ≠ (GalleryPath.mk "/pics/b" "x.png").dir ∧
    thumbKeyFor ⟨"/pics/a", "x.png"⟩ ≠ thumbKeyFor ⟨"/pics/b", "x.png"⟩ :=
  ⟨by decide,
   (thumb_key_properties ⟨"/pics/a", "x.png"⟩ ⟨"/pics/b", "x.png"⟩
     ⟨"/pics/a", "x.png"⟩ (by decide)).2.1⟩

/- ===================================================================
   Path enumerator: app.py lines 21, 63-78
   =================================================================== -/

/-- One child of a directory as seen by `Path.iterdir()`: name, the results of
`is_dir()` / `is_file()`, and `stat().st_mtime`.  A directory listing is
`none` when `iterdir` itself raises (the listing in CPython is materialized by
`os.listdir` before any entry is yielded, so an enumeration error produces no
entries at all), otherwise the list of children in scan order. -/
structure DirEntry where
  name : String
  isDir : Bool
  isFile : Bool
  mtime : ℚ
deriving DecidableEq

/-- `IMAGE_EXTS` of app.py:21. -/
def IMAGE_EXTS : List String :=
  [".png", ".jpg", ".jpeg", ".gif", ".bmp", ".webp", ".tiff"]

/-- `list_subdirs` of app.py:63-67: the sorted names of the child directories,
`[]` when the base cannot be read.  Python's `sorted` on sibling `Path`s
compares the final components as strings. -/
def list_subdirs (listing : Option (List DirEntry)) : List String :=
  match listing with
  | none => []
  | some es => List.insertionSort (· ≤ ·) ((es.filter (fun e => e.isDir)).map (fun e => e.name))

/-- The index of the last dot of a name, as computed by `str.rfind(".")`. -/
def lastIndexOfDot (cs : List Char) : Option ℕ :=
  ((List.range cs.length).filter (fun i => cs.getD i ' ' == '.')).getLast?

/-- CPython `PurePath.suffix`: the part of the final component from its last
dot, unless the dot is leading or trailing. -/
def pySuffix (name : String) : String :=
  match lastIndexOfDot name.data with
  | none => ""
  | some i =>
    if 0 < i ∧ i + 1 < name.data.length then String.mk (name.data.drop i) else ""

/-- Python `str.lower()` restricted to its ASCII action, which is all the
extension comparison of app.py:74 ever relies on. -/
def strLower (s : String) : String :=
  String.mk (s.data.map Char.toLower)

/-- `list_images` of app.py:70-78: keep the regular-file children whose
lowercased suffix is a recognized image extension, paired with their mtimes;
`[]` when the directory cannot be enumerated. -/
def list_images (listing : Option (List DirEntry)) : List (String × ℚ) :=
  match listing with
  | none => []
  | some es => es.filterMap (fun e =>
      if e.isFile = true ∧ strLower (pySuffix e.name) ∈ IMAGE_EXTS then
        some (e.name, e.mtime)
      else none)

/-- The spec's own test listing: `a.png`, `b.txt` and a `.thumbnails`
subdirectory. -/
def exampleListing : List DirEntry :=
  [⟨"a.png", false, true, 1⟩, ⟨"b.txt", false, true, 2⟩, ⟨".thumbnails", true, false, 3⟩]

/-- C7 (counterexample): a `.thumbnails` child directory is returned by
`list_subdirs` like any other subdirectory; the code never filters it out. -/
theorem list_subdirs_thumbnails_counterexample :
    ".thumbnails" ∈ list_subdirs (some [⟨".thumbnails", true, false, 0⟩]) := by
  simp [list_subdirs, List.mem_insertionSort]

/-- C7 (amended): `list_subdirs` returns a sorted sequence of the names of all
child directories, `.thumbnails` included when present, and returns the empty
sequence when the base directory cannot be read. -/
theorem list_subdirs_contract (es : List DirEntry) (d : String) :
    list_subdirs none = [] ∧
    (list_subdirs (some es)).Sorted (· ≤ ·) ∧
    (d ∈ list_subdirs (some es) ↔ ∃ e, e ∈ es ∧ e.isDir = true ∧ e.name = d) := by
  refine ⟨rfl, ?_, ?_⟩
  · exact List.sorted_insertionSort _ _
  · rw [show list_subdirs (some es) =
        List.insertionSort (· ≤ ·) ((es.filter (fun e => e.isDir)).map (fun e => e.name))
      from rfl]
    rw [List.mem_insertionSort]
    simp only [List.mem_map, List.mem_filter]
    constructor
    · rintro ⟨e, ⟨he, hdir⟩, hname⟩
      exact ⟨e, he, hdir, hname⟩
    · rintro ⟨e, he, hdir, hname⟩
      exact ⟨e, ⟨he, hdir⟩, hname⟩

/-- C8: `list_images` filtering: non-recursive scan keeping exactly the
regular-file children with a recognized lowercase extension paired with their
mtimes, the empty sequence when enumeration fails, and the spec's example
listing yields exactly `a.png`. -/
theorem list_images_filtering (es : List DirEntry) (p : String) (m : ℚ) :
    list_images none = [] ∧
    ((p, m) ∈ list_images (some es) ↔
      ∃ e, e ∈ es ∧ e.isFile = true ∧ strLower (pySuffix e.name) ∈ IMAGE_EXTS ∧
        e.name = p ∧ e.mtime = m) ∧
    list_images (some exampleListing) = [("a.png", 1)] := by
  refine ⟨rfl, ?_, ?_⟩
  · simp only [list_images, List.mem_filterMap]
    constructor
    · rintro ⟨e, he, hcond⟩
      by_cases hc : e.isFile = true ∧ strLower (pySuffix e.name) ∈ IMAGE_EXTS
      · rw [if_pos hc] at hcond
        obtain ⟨hname, hm⟩ := Prod.mk.injEq _ _ _ _ ▸ Option.some.inj hcond
        exact ⟨e, he, hc.1, hc.2, hname, hm⟩
      · rw [if_neg hc] at hcond
        cases hcond
    · rintro ⟨e, he, hfile, hext, hname, hm⟩
      refine ⟨e, he, ?_⟩
      rw [if_pos ⟨hfile, hext⟩, hname, hm]
  · decide

/- ===================================================================
   Thumbnail cache manager: app.py lines 96-149
   =================================================================== -/

/-- The slice of the filesystem state touched by
`generate_thumbnail_if_needed` for one source image: whether the derived
thumbnail file exists and its mtime, the source's mtime, the decoded source
image, the stored rendered raster, and the wall-clock time `time.time()`
observed during the call. -/
structure CacheFs where
  thumbExists : Bool
  thumbMtime : ℚ
  srcMtime : ℚ
  srcImage : RGBAImage
  thumbContent : Option Raster
  now : ℚ

/-- Which of the fallible operations of app.py:105-144 raise during the call:
the two `stat` calls of the staleness check (line 107), `Image.open` /
decoding (line 110), `mkdir` (line 137), `save` (line 138), and the
`os.utime` block (lines 141-144, whose internal re-`stat` of the source is
folded into the same flag because both sit inside the same inner `try`). -/
structure FailOracle where
  thumbStatFails : Bool
  srcStatFails : Bool
  openFails : Bool
  mkdirFails : Bool
  saveFails : Bool
  utimeFails : Bool

/-- The oracle of an error-free run. -/
def noFailures : FailOracle := ⟨false, false, false, false, false, false⟩

/-- The render-and-store tail of app.py:110-146: decode, render (pure in the
model), make the cache directory, save, then stamp the thumbnail's mtime with
the source's mtime — the `utime` failure alone is swallowed by the inner
`except: pass`, every other failure propagates to the outer handler which
returns the original image path with the state as it was. -/
def renderAndStore (resample : Resample) (image_path thumb_path : GalleryPath)
    (size : ℕ × ℕ) (fs : CacheFs) (o : FailOracle) : GalleryPath × CacheFs :=
  if o.openFails = true then (image_path, fs)
  else if o.mkdirFails = true then (image_path, fs)
  else if o.saveFails = true then (image_path, fs)
  else if o.utimeFails = true then
    (thumb_path, { fs with
      thumbExists := true
      thumbMtime := fs.now
      thumbContent := some (renderThumb resample fs.srcImage size.1 size.2) })
  else
    (thumb_path, { fs with
      thumbExists := true
      thumbMtime := fs.srcMtime
      thumbContent := some (renderThumb resample fs.srcImage size.1 size.2) })

/-- `generate_thumbnail_if_needed` of app.py:96-149.  The cache-hit test of
line 107 short-circuits: when the thumbnail file does not exist no `stat` is
evaluated; when it exists a failing `stat` raises into the outer handler. -/
def generate_thumbnail_if_needed (resample : Resample)
    (image_path thumb_path : GalleryPath) (size : ℕ × ℕ)
    (fs : CacheFs) (o : FailOracle) : GalleryPath × CacheFs :=
  if fs.thumbExists = true then
    if o.thumbStatFails = true ∨ o.srcStatFails = true then (image_path, fs)
    else if fs.srcMtime ≤ fs.thumbMtime then (thumb_path, fs)
    else renderAndStore resample image_path thumb_path size fs o
  else renderAndStore resample image_path thumb_path size fs o

/-- The run reaches the render-and-store tail: either there is no thumbnail
file yet, or the staleness stats succeed and report the thumbnail stale. -/
def reachesRender (fs : CacheFs) (o : FailOracle) : Prop :=
  fs.thumbExists = false ∨
  (o.thumbStatFails = false ∧ o.srcStatFails = false ∧ fs.thumbMtime < fs.srcMtime)

lemma gen_eq_renderAndStore (resample : Resample)
    (image_path thumb_path : GalleryPath) (size : ℕ × ℕ) (fs : CacheFs)
    (o : FailOracle) (h : reachesRender fs o) :
    generate_thumbnail_if_needed resample image_path thumb_path size fs o =
      renderAndStore resample image_path thumb_path size fs o := by
  rcases h with hE | ⟨h1, h2, h3⟩
  · simp [generate_thumbnail_if_needed, hE]
  · by_cases hE : fs.thumbExists = true
    · have hnle : ¬ fs.srcMtime ≤ fs.thumbMtime := not_le.mpr h3
      simp [generate_thumbnail_if_needed, hE, h1, h2, hnle]
    · simp [generate_thumbnail_if_needed, hE]

/-- C1: cache coherency under an error-free run.  A fresh thumbnail (exists,
mtime at least the source's) is returned unchanged with the state untouched;
a stale one is regenerated and its stored mtime is stamped equal to the
source's mtime; and the call is idempotent: running it again on the state it
produced returns the identical result. -/
theorem generate_thumbnail_cache_coherency (resample : Resample)
    (image_path thumb_path : GalleryPath) (size : ℕ × ℕ) (fs : CacheFs)
    (o : FailOracle) (ho : o = noFailures) :
    (fs.thumbExists = true → fs.srcMtime ≤ fs.thumbMtime →
      generate_thumbnail_if_needed resample image_path thumb_path size fs o =
        (thumb_path, fs)) ∧
    (fs.thumbExists = true → fs.thumbMtime < fs.srcMtime →
      (generate_thumbnail_if_needed resample image_path thumb_path size fs o).1 =
        thumb_path ∧
      (generate_thumbnail_if_needed resample image_path thumb_path size fs o).2.thumbMtime =
        fs.srcMtime ∧
      (generate_thumbnail_if_needed resample image_path thumb_path size fs o).2.thumbContent =
        some (renderThumb resample fs.srcImage size.1 size.2)) ∧
    generate_thumbnail_if_needed resample image_path thumb_path size
        (generate_thumbnail_if_needed resample image_path thumb_path size fs o).2 o =
      generate_thumbnail_if_needed resample image_path thumb_path size fs o := by
  subst ho
  refine ⟨?_, ?_, ?_⟩
  · intro hE hle
    simp [generate_thumbnail_if_needed, hE, noFailures, hle]
  · intro hE hlt
    have hnle : ¬ fs.srcMtime ≤ fs.thumbMtime := not_le.mpr hlt
    simp [generate_thumbnail_if_needed, renderAndStore, hE, noFailures, hnle]
  · by_cases hE : fs.thumbExists = true
    · by_cases hle : fs.srcMtime ≤ fs.thumbMtime
      · simp [generate_thumbnail_if_needed, hE, noFailures, hle]
      · simp [generate_thumbnail_if_needed, renderAndStore, hE, noFailures, hle]
    · simp [generate_thumbnail_if_needed, renderAndStore, hE, noFailures]

/-- C1 at a concrete input: a stale cache entry (thumbnail mtime 3, source
mtime 5) is regenerated, the thumbnail path is returned and the stamped mtime
equals the source's. -/
theorem generate_thumbnail_cache_coherency_witness :
    (⟨true, 3, 5, ⟨1, 1, fun _ _ => ⟨0, 0, 0, 255⟩⟩, none, 100⟩ : CacheFs).thumbExists = true ∧
    (⟨true, 3, 5, ⟨1, 1, fun _ _ => ⟨0, 0, 0, 255⟩⟩, none, 100⟩ : CacheFs).thumbMtime <
      (⟨true, 3, 5, ⟨1, 1, fun _ _ => ⟨0, 0, 0, 255⟩⟩, none, 100⟩ : CacheFs).srcMtime ∧
    (generate_thumbnail_if_needed (fun _ _ _ _ _ => ⟨0, 0, 0, 255⟩)
      ⟨"/pics/a", "x.png"⟩ ⟨"/pics/a/.thumbnails", "h.jpg"⟩ THUMB_SIZE
      ⟨true, 3, 5, ⟨1, 1, fun _ _ => ⟨0, 0, 0, 255⟩⟩, none, 100⟩ noFailures).1 =
        ⟨"/pics/a/.thumbnails", "h.jpg"⟩ ∧
    (generate_thumbnail_if_needed (fun _ _ _ _ _ => ⟨0, 0, 0, 255⟩)
      ⟨"/pics/a", "x.png"⟩ ⟨"/pics/a/.thumbnails", "h.jpg"⟩ THUMB_SIZE
      ⟨true, 3, 5, ⟨1, 1, fun _ _ => ⟨0, 0, 0, 255⟩⟩, none, 100⟩ noFailures).2.thumbMtime = 5 := by
  have h := (generate_thumbnail_cache_coherency (fun _ _ _ _ _ => ⟨0, 0, 0, 255⟩)
    ⟨"/pics/a", "x.png"⟩ ⟨"/pics/a/.thumbnails", "h.jpg"⟩ THUMB_SIZE
    ⟨true, 3, 5, ⟨1, 1, fun _ _ => ⟨0, 0, 0, 255⟩⟩, none, 100⟩ noFailures rfl).2.1
    rfl (by norm_num)
  exact ⟨rfl, by norm_num, h.1, h.2.1⟩

/-- C3: error fallback.  The call only ever returns the thumbnail path or the
original image path (the outer handler swallows every exception); and a
failure in the staleness stats, in decoding, in the cache-directory creation
or in the cache write makes it return the original image path. -/
theorem generate_thumbnail_error_fallback (resample : Resample)
    (image_path thumb_path : GalleryPath) (size : ℕ × ℕ) (fs : CacheFs)
    (o : FailOracle) :
    ((generate_thumbnail_if_needed resample image_path thumb_path size fs o).1 =
        thumb_path ∨
     (generate_thumbnail_if_needed resample image_path thumb_path size fs o).1 =
        image_path) ∧
    (fs.thumbExists = true → (o.thumbStatFails = true ∨ o.srcStatFails = true) →
      generate_thumbnail_if_needed resample image_path thumb_path size fs o =
        (image_path, fs)) ∧
    (reachesRender fs o → o.openFails = true →
      generate_thumbnail_if_needed resample image_path thumb_path size fs o =
        (image_path, fs)) ∧
    (reachesRender fs o → o.openFails = false → o.mkdirFails = true →
      generate_thumbnail_if_needed resample image_path thumb_path size fs o =
        (image_path, fs)) ∧
    (reachesRender fs o → o.openFails = false → o.mkdirFails = false →
        o.saveFails = true →
      generate_thumbnail_if_needed resample image_path thumb_path size fs o =
        (image_path, fs)) := by
  refine ⟨?_, ?_, ?_, ?_, ?_⟩
  · unfold generate_thumbnail_if_needed renderAndStore
    split_ifs <;> simp
  · intro hE hstat
    simp [generate_thumbnail_if_needed, hE, hstat]
  · intro hre hopen
    rw [gen_eq_renderAndStore resample image_path thumb_path size fs o hre]
    simp [renderAndStore, hopen]
  · intro hre hopen hmkdir
    rw [gen_eq_renderAndStore resample image_path thumb_path size fs o hre]
    simp [renderAndStore, hopen, hmkdir]
  · intro hre hopen hmkdir hsave
    rw [gen_eq_renderAndStore resample image_path thumb_path size fs o hre]
    simp [renderAndStore, hopen, hmkdir, hsave]

/-- C3 at a concrete input: with no cached thumbnail and a failing decode the
call returns the original image path and leaves the state unchanged. -/
theorem generate_thumbnail_error_fallback_witness :
    reachesRender ⟨false, 0, 5, ⟨1, 1, fun _ _ => ⟨0, 0, 0, 255⟩⟩, none, 100⟩
      ⟨false, false, true, false, false, false⟩ ∧
    generate_thumbnail_if_needed (fun _ _ _ _ _ => ⟨0, 0, 0, 255⟩)
      ⟨"/pics/a", "x.png"⟩ ⟨"/pics/a/.thumbnails", "h.jpg"⟩ THUMB_SIZE
      ⟨false, 0, 5, ⟨1, 1, fun _ _ => ⟨0, 0, 0, 255⟩⟩, none, 100⟩
      ⟨false, false, true, false, false, false⟩ =
      (⟨"/pics/a", "x.png"⟩, ⟨false, 0, 5, ⟨1, 1, fun _ _ => ⟨0, 0, 0, 255⟩⟩, none, 100⟩) :=
  ⟨Or.inl rfl,
   (generate_thumbnail_error_fallback (fun _ _ _ _ _ => ⟨0, 0, 0, 255⟩)
     ⟨"/pics/a", "x.png"⟩ ⟨"/pics/a/.thumbnails", "h.jpg"⟩ THUMB_SIZE
     ⟨false, 0, 5, ⟨1, 1, fun _ _ => ⟨0, 0, 0, 255⟩⟩, none, 100⟩
     ⟨false, false, true, false, false, false⟩).2.2.1 (Or.inl rfl) rfl⟩

/-- C10: when rendering and writing succeed but the `os.utime` stamping fails,
the inner `except: pass` swallows the error: the thumbnail path is still
returned, the thumbnail exists with the freshly rendered content, but its
mtime is the wall-clock write time, not the source's mtime. -/
theorem generate_thumbnail_utime_swallowed (resample : Resample)
    (image_path thumb_path : GalleryPath) (size : ℕ × ℕ) (fs : CacheFs)
    (o : FailOracle) (hre : reachesRender fs o) (h1 : o.openFails = false)
    (h2 : o.mkdirFails = false) (h3 : o.saveFails = false)
    (h4 : o.utimeFails = true) :
    (generate_thumbnail_if_needed resample image_path thumb_path size fs o).1 =
      thumb_path ∧
    (generate_thumbnail_if_needed resample image_path thumb_path size fs o).2.thumbExists =
      true ∧
    (generate_thumbnail_if_needed resample image_path thumb_path size fs o).2.thumbMtime =
      fs.now ∧
    (generate_thumbnail_if_needed resample image_path thumb_path size fs o).2.thumbContent =
      some (renderThumb resample fs.srcImage size.1 size.2) := by
  rw [gen_eq_renderAndStore resample image_path thumb_path size fs o hre]
  simp [renderAndStore, h1, h2, h3, h4]

/-- C10 at a concrete input: a cold cache, successful write, failing `utime`:
the thumbnail path is returned and the stored mtime is the wall-clock 100,
not the source's 5. -/
theorem generate_thumbnail_utime_swallowed_witness :
    (generate_thumbnail_if_needed (fun _ _ _ _ _ => ⟨0, 0, 0, 255⟩)
      ⟨"/pics/a", "x.png"⟩ ⟨"/pics/a/.thumbnails", "h.jpg"⟩ THUMB_SIZE
      ⟨false, 0, 5, ⟨1, 1, fun _ _ => ⟨0, 0, 0, 255⟩⟩, none, 100⟩
      ⟨false, false, false, false, false, true⟩).1 = ⟨"/pics/a/.thumbnails", "h.jpg"⟩ ∧
    (generate_thumbnail_if_needed (fun _ _ _ _ _ => ⟨0, 0, 0, 255⟩)
      ⟨"/pics/a", "x.png"⟩ ⟨"/pics/a/.thumbnails", "h.jpg"⟩ THUMB_SIZE
      ⟨false, 0, 5, ⟨1, 1, fun _ _ => ⟨0, 0, 0, 255⟩⟩, none, 100⟩
      ⟨false, false, false, false, false, true⟩).2.thumbMtime = 100 := by
  have h := generate_thumbnail_utime_swallowed (fun _ _ _ _ _ => ⟨0, 0, 0, 255⟩)
    ⟨"/pics/a", "x.png"⟩ ⟨"/pics/a/.thumbnails", "h.jpg"⟩ THUMB_SIZE
    ⟨false, 0, 5, ⟨1, 1, fun _ _ => ⟨0, 0, 0, 255⟩⟩, none, 100⟩
    ⟨false, false, false, false, false, true⟩ (Or.inl rfl) rfl rfl rfl rfl
  exact ⟨h.1, h.2.2.1⟩

/- ===================================================================
   Deletion executor: app.py lines 152-161
   =================================================================== -/

/-- The `str(e)` of the `FileNotFoundError` raised by `os.remove` on a missing
path (the representative per-file failure of the model). -/
def removeErrMsg (p : String) : String :=
  "[Errno 2] No such file or directory: " ++ p

/-- `os.remove(p)` against a disk modelled as the list of existing files:
removes an existing file, raises (here: returns the error message) for a
missing one. -/
def os_remove (fs : List String) (p : String) : Except String (List String) :=
  if p ∈ fs then Except.ok (fs.erase p)
  else Except.error (removeErrMsg p)

/-- `delete_paths` of app.py:152-161: attempt every path in order, collecting
successes and `(path, str(e))` failures; one failure never stops the loop.
Returns `((successes, failures), remaining files on disk)`. -/
def delete_paths :
    List String → List String → (List String × List (String × String)) × List String
  | [], fs => (([], []), fs)
  | p :: ps, fs =>
    match os_remove fs p with
    | Except.ok fs2 =>
      let r := delete_paths ps fs2
      ((p :: r.1.1, r.1.2), r.2)
    | Except.error e =>
      let r := delete_paths ps fs
      ((r.1.1, (p, e) :: r.1.2), r.2)

/-- C9: batch independence of deletion.  For a duplicate-free batch over a
duplicate-free disk, the successes are exactly the paths present on disk, in
batch order, and the failures are exactly the missing paths, each carrying the
offending path and its human-readable error message — so a failure never
aborts the remaining removals; moreover every successfully removed path is
gone from the disk afterwards. -/
theorem delete_paths_batch_independence (paths fs : List String)
    (hpaths : paths.Nodup) (hfs : fs.Nodup) :
    (delete_paths paths fs).1.1 = paths.filter (fun p => decide (p ∈ fs)) ∧
    (delete_paths paths fs).1.2 =
      (paths.filter (fun p => decide (p ∉ fs))).map (fun p => (p, removeErrMsg p)) ∧
    (delete_paths paths fs).2 = fs.filter (fun q => decide (q ∉ paths)) := by
  induction paths generalizing fs with
  | nil => simp [delete_paths]
  | cons p ps ih =>
    rw [List.nodup_cons] at hpaths
    obtain ⟨hp, hps⟩ := hpaths
    by_cases hmem : p ∈ fs
    · have hos : os_remove fs p = Except.ok (fs.erase p) := by
        simp [os_remove, hmem]
      have ihh := ih (fs.erase p) hps (hfs.erase p)
      have hfilt1 : ps.filter (fun q => decide (q ∈ fs.erase p)) =
          ps.filter (fun q => decide (q ∈ fs)) := by
        apply List.filter_congr
        intro q hq
        have hqp : q ≠ p := fun h => hp (h ▸ hq)
        simp [hfs.mem_erase_iff, hqp]
      have hfilt2 : ps.filter (fun q => decide (q ∉ fs.erase p)) =
          ps.filter (fun q => decide (q ∉ fs)) := by
        apply List.filter_congr
        intro q hq
        have hqp : q ≠ p := fun h => hp (h ▸ hq)
        simp [hfs.mem_erase_iff, hqp]
      have hfilt3 : (fs.erase p).filter (fun q => decide (q ∉ ps)) =
          fs.filter (fun q => decide (q ∉ p :: ps)) := by
        rw [hfs.erase_eq_filter p, List.filter_filter]
        apply List.filter_congr
        intro q hq
        simp only [List.mem_cons, decide_not]
        cases hqp : q == p with
        | true => simp [eq_of_beq hqp]
        | false =>
          have : q ≠ p := ne_of_beq_false hqp
          simp [this]
      refine ⟨?_, ?_, ?_⟩
      · simp only [delete_paths, hos]
        rw [ihh.1, hfilt1]
        simp [List.filter_cons, hmem]
      · simp only [delete_paths, hos]
        rw [ihh.2.1, hfilt2]
        simp [List.filter_cons, hmem]
      · simp only [delete_paths, hos]
        rw [ihh.2.2, hfilt3]
    · have hos : os_remove fs p = Except.error (removeErrMsg p) := by
        simp [os_remove, hmem]
      have ihh := ih fs hps hfs
      have hfilt3 : fs.filter (fun q => decide (q ∉ ps)) =
          fs.filter (fun q => decide (q ∉ p :: ps)) := by
        apply List.filter_congr
        intro q hq
        have hqp : q ≠ p := fun h => hmem (h ▸ hq)
        simp [hqp]
      refine ⟨?_, ?_, ?_⟩
      · simp only [delete_paths, hos]
        rw [ihh.1]
        simp [List.filter_cons, hmem]
      · simp only [delete_paths, hos]
        rw [ihh.2.1]
        simp [List.filter_cons, hmem]
      · simp only [delete_paths, hos]
        rw [ihh.2.2, hfilt3]

/-- C9 at the spec's example batch: `[valid1, missing2, valid3]` against a
disk holding `valid1` and `valid3` yields exactly those two successes, one
failure carrying `missing2` and its message, and an empty disk afterwards. -/
theorem delete_paths_batch_independence_witness :
    (delete_paths ["/g/1.png", "/g/2.png", "/g/3.png"] ["/g/1.png", "/g/3.png"]).1.1 =
      ["/g/1.png", "/g/3.png"] ∧
    (delete_paths ["/g/1.png", "/g/2.png", "/g/3.png"] ["/g/1.png", "/g/3.png"]).1.2 =
      [("/g/2.png", removeErrMsg "/g/2.png")] ∧
    (delete_paths ["/g/1.png", "/g/2.png", "/g/3.png"] ["/g/1.png", "/g/3.png"]).2 = [] := by
  have h := delete_paths_batch_independence ["/g/1.png", "/g/2.png", "/g/3.png"]
    ["/g/1.png", "/g/3.png"] (by decide) (by decide)
  refine ⟨h.1.trans (by decide), h.2.1.trans (by decide), h.2.2.trans (by decide)⟩
